import Mathlib

/-!
# Ingress annotation accessors

A shallow embedding of `operator/pkg/ingress/annotations/annotations.go`
together with the part of Go's `strconv` the accessors call
(`ParseInt` at base 10, which calls `ParseUint`).

Conventions of the embedding:

* a Go `string` is a Lean `String`; the byte loop of `ParseUint` is run over
  the characters of the string.  Every byte of a multi-byte UTF-8 sequence is
  at least `0x80`, so it takes the `default` branch of the loop's `switch`,
  exactly as the character itself does here;
* `map[string]string` is a lookup function `String → Option String`; the
  two-value index expression `val, exists := m[k]` is a `match` on the lookup
  and the one-value form `m[k]` is the lookup with the zero value `""`;
* `int64` is `Int` and `uint32`, `uint64` are `Nat`, with the wrap-around of
  each conversion and operation written out;
* a Go `error` is `Option NumError` (`none` is `nil`) and a `*uint32` is
  `Option Nat` (`none` is `nil`);
* `annotation.Prefix` is declared in another package; the keys take it as the
  parameter `pfx`.
-/

namespace annotations

/-! ## strconv -/

/-- The sentinel errors of `strconv` (`ErrRange`, `ErrSyntax`) and the error
made by `bitSizeError`. -/
inductive ErrKind where
  | ErrRange
  | ErrSyntax
  | ErrBitSize (bitSize : Nat)
deriving DecidableEq, Repr

/-- Go's `strconv.NumError`. -/
structure NumError where
  Func : String
  Num : String
  Err : ErrKind
deriving DecidableEq, Repr

def fnParseUint : String := "ParseUint"

def fnParseInt : String := "ParseInt"

def syntaxError (fn str : String) : NumError := ⟨fn, str, ErrKind.ErrSyntax⟩

def rangeError (fn str : String) : NumError := ⟨fn, str, ErrKind.ErrRange⟩

def bitSizeError (fn str : String) (bitSize : Nat) : NumError :=
  ⟨fn, str, ErrKind.ErrBitSize bitSize⟩

/-- The constant `maxUint64 = 1<<64 - 1`. -/
def maxUint64 : Nat := 2 ^ 64 - 1

/-- The helper `lower(c) = c | ('x' - 'X')` on a byte. -/
def lower (c : Nat) : Nat := c ||| 32

/-- The `switch` at the head of the loop of `ParseUint`, for `base0 = false`:
the digit value of a byte, or `none` for the `default` branch. -/
def digitVal (c : Char) : Option Nat :=
  if '0'.toNat ≤ c.toNat ∧ c.toNat ≤ '9'.toNat then
    some (c.toNat - '0'.toNat)
  else if 'a'.toNat ≤ lower c.toNat ∧ lower c.toNat ≤ 'z'.toNat then
    some (lower c.toNat - 'a'.toNat + 10)
  else
    none

/-- The loop `for _, c := range []byte(s)` of `ParseUint` at base 10, with `n`
the accumulator (a `uint64`). `cutoff` is `maxUint64/10 + 1`. -/
def parseUintLoop (s0 : String) (maxVal : Nat) : List Char → Nat → Nat × Option NumError
  | [], n => (n, none)
  | c :: cs, n =>
    match digitVal c with
    | none => (0, some (syntaxError fnParseUint s0))
    | some d =>
      if d ≥ 10 then
        (0, some (syntaxError fnParseUint s0))
      else if n ≥ maxUint64 / 10 + 1 then
        (maxVal, some (rangeError fnParseUint s0))
      else
        let n10 := n * 10 % 2 ^ 64
        let n1 := (n10 + d) % 2 ^ 64
        if n1 < n10 ∨ n1 > maxVal then
          (maxVal, some (rangeError fnParseUint s0))
        else
          parseUintLoop s0 maxVal cs n1

/-- Go's `strconv.ParseUint(s, 10, bitSize)`. The base is the constant 10 at
every call, so `base0` is false and the case `2 <= base && base <= 36` of the
first `switch` is the one taken. -/
def ParseUint (s : String) (bitSize : Nat) : Nat × Option NumError :=
  if s = "" then
    (0, some (syntaxError fnParseUint s))
  else if bitSize > 64 then
    (0, some (bitSizeError fnParseUint s bitSize))
  else
    let bitSize := if bitSize = 0 then 64 else bitSize
    let maxVal := 2 ^ bitSize - 1
    parseUintLoop s maxVal s.data 0

/-- The conversion `int64(x)`: wrap-around into the signed 64-bit range. -/
def toInt64 (x : Int) : Int := (x + 2 ^ 63) % 2 ^ 64 - 2 ^ 63

/-- The conversion `uint32(x)`. -/
def toUint32 (x : Int) : Nat := (x % 2 ^ 32).toNat

/-- Picking off the leading sign in `ParseInt`: the flag `neg` and the rest of
the string. -/
def pickSign (s : String) : Bool × String :=
  match s.data with
  | '+' :: rest => (false, String.mk rest)
  | '-' :: rest => (true, String.mk rest)
  | _ => (false, s)

/-- Go's `strconv.ParseInt(s, 10, bitSize)`: the value and the error it
returns (a range error comes with the clamped value). -/
def ParseInt (s : String) (bitSize : Nat) : Int × Option NumError :=
  if s = "" then
    (0, some (syntaxError fnParseInt s))
  else
    let s0 := s
    let neg := (pickSign s).1
    let s := (pickSign s).2
    let r := ParseUint s bitSize
    let un := r.1
    match r.2 with
    | some (NumError.mk _ _ ErrKind.ErrRange) | none =>
      let bitSize := if bitSize = 0 then 64 else bitSize
      let cutoff := 2 ^ (bitSize - 1) % 2 ^ 64
      if !neg && decide (un ≥ cutoff) then
        (toInt64 (cutoff - 1), some (rangeError fnParseInt s0))
      else if neg && decide (un > cutoff) then
        (toInt64 (-(toInt64 cutoff)), some (rangeError fnParseInt s0))
      else
        let n := toInt64 un
        (if neg then toInt64 (-n) else n, none)
    | some err =>
      (0, some (NumError.mk fnParseInt s0 err.Err))

/-! ## Rendering and well-formedness of integers (the vocabulary of the claims) -/

/-- The base-10 rendering of an unsigned integer, as `strconv.FormatUint(p, 10)`
writes it: its decimal digits, most significant first, `"0"` for zero. -/
def FormatUint (p : Nat) : String := Nat.repr p

/-- The base-10 rendering of a signed integer, as `strconv.FormatInt(i, 10)`
writes it: a minus sign for a negative number, then the digits of its
magnitude. -/
def FormatInt (i : Int) : String :=
  if i < 0 then "-" ++ Nat.repr i.natAbs else Nat.repr i.natAbs

/-- A decimal digit, `0` to `9`. -/
def isDecimalDigit (c : Char) : Bool :=
  decide ('0'.toNat ≤ c.toNat ∧ c.toNat ≤ '9'.toNat)

/-- A base-10 integer string: an optional sign `+` or `-` followed by one or
more decimal digits. -/
def isBase10Integer (s : String) : Bool :=
  match s.data with
  | '+' :: ds => !ds.isEmpty && ds.all isDecimalDigit
  | '-' :: ds => !ds.isEmpty && ds.all isDecimalDigit
  | ds => !ds.isEmpty && ds.all isDecimalDigit

/-! ## The annotation source -/

/-- The part of `slim_networkingv1.Ingress` the accessors read: the annotation
map of its object metadata. A `nil` map and an empty map are both the function
that is `none` everywhere. -/
structure Ingress where
  Annotations : String → Option String

/-- The method `GetAnnotations` of the object metadata: it returns the map. -/
def Ingress.GetAnnotations (ingress : Ingress) : String → Option String :=
  ingress.Annotations

/-- The ingress without annotations. -/
def Ingress.empty : Ingress := ⟨fun _ => none⟩

/-- The ingress that is `ingress` with the entry `k = v` set. -/
def Ingress.set (ingress : Ingress) (k v : String) : Ingress :=
  ⟨fun key => if key = k then some v else ingress.Annotations key⟩

/-! ## The annotation keys -/

def LBModeAnnotation (pfx : String) : String :=
  pfx ++ ".ingress" ++ "/loadbalancer-mode"

def ServiceTypeAnnotation (pfx : String) : String :=
  pfx ++ ".ingress" ++ "/service-type"

def InsecureNodePortAnnotation (pfx : String) : String :=
  pfx ++ ".ingress" ++ "/insecure-node-port"

def SecureNodePortAnnotation (pfx : String) : String :=
  pfx ++ ".ingress" ++ "/secure-node-port"

def TCPKeepAliveEnabledAnnotation (pfx : String) : String :=
  pfx ++ "/tcp-keep-alive"

def TCPKeepAliveIdleAnnotation (pfx : String) : String :=
  pfx ++ "/tcp-keep-alive-idle"

def TCPKeepAliveProbeIntervalAnnotation (pfx : String) : String :=
  pfx ++ "/tcp-keep-alive-probe-interval"

def TCPKeepAliveProbeMaxFailuresAnnotation (pfx : String) : String :=
  pfx ++ "/tcp-keep-alive-probe-max-failures"

def WebsocketEnabledAnnotation (pfx : String) : String :=
  pfx ++ "/websocket"

/-! ## The constants -/

def enabled : String := "enabled"

def defaultTCPKeepAliveEnabled : Int := 1

def defaultTCPKeepAliveInitialIdle : Int := 10

def defaultTCPKeepAliveProbeInterval : Int := 5

def defaultTCPKeepAliveMaxProbeCount : Int := 10

def defaultWebsocketEnabled : Int := 0

/-- Modelled from the spec: the constant `slim_corev1.ServiceTypeLoadBalancer`
is declared in another package; the spec gives its string, `"LoadBalancer"`. -/
def ServiceTypeLoadBalancer : String := "LoadBalancer"

/-! ## The accessors -/

def GetAnnotationIngressLoadbalancerMode (pfx : String) (ingress : Ingress) : String :=
  (ingress.GetAnnotations ( LBModeAnnotation pfx)).getD ""

def GetAnnotationServiceType (pfx : String) (ingress : Ingress) : String :=
  match ingress.GetAnnotations ( ServiceTypeAnnotation pfx) with
  | none => ServiceTypeLoadBalancer
  | some val => val

def GetAnnotationSecureNodePort (pfx : String) (ingress : Ingress) :
    Option Nat × Option NumError :=
  match ingress.GetAnnotations ( SecureNodePortAnnotation pfx) with
  | none => (none, none)
  | some val =>
    match ParseInt val 32 with
    | (_, some err) => (none, some err)
    | (intVal, none) => (some (toUint32 intVal), none)

def GetAnnotationInsecureNodePort (pfx : String) (ingress : Ingress) :
    Option Nat × Option NumError :=
  match ingress.GetAnnotations ( InsecureNodePortAnnotation pfx) with
  | none => (none, none)
  | some val =>
    match ParseInt val 32 with
    | (_, some err) => (none, some err)
    | (intVal, none) => (some (toUint32 intVal), none)

def GetAnnotationTCPKeepAliveEnabled (pfx : String) (ingress : Ingress) : Int :=
  match ingress.GetAnnotations ( TCPKeepAliveEnabledAnnotation pfx) with
  | none => defaultTCPKeepAliveEnabled
  | some val => if val = enabled then 1 else 0

def GetAnnotationTCPKeepAliveIdle (pfx : String) (ingress : Ingress) : Int :=
  match ingress.GetAnnotations ( TCPKeepAliveIdleAnnotation pfx) with
  | none => defaultTCPKeepAliveInitialIdle
  | some val =>
    match ParseInt val 64 with
    | (_, some _) => defaultTCPKeepAliveInitialIdle
    | (intVal, none) => intVal

def GetAnnotationTCPKeepAliveProbeInterval (pfx : String) (ingress : Ingress) : Int :=
  match ingress.GetAnnotations ( TCPKeepAliveProbeIntervalAnnotation pfx) with
  | none => defaultTCPKeepAliveProbeInterval
  | some val =>
    match ParseInt val 64 with
    | (_, some _) => defaultTCPKeepAliveProbeInterval
    | (intVal, none) => intVal

def GetAnnotationTCPKeepAliveProbeMaxFailures (pfx : String) (ingress : Ingress) : Int :=
  match ingress.GetAnnotations ( TCPKeepAliveProbeMaxFailuresAnnotation pfx) with
  | none => defaultTCPKeepAliveMaxProbeCount
  | some val =>
    match ParseInt val 64 with
    | (_, some _) => defaultTCPKeepAliveMaxProbeCount
    | (intVal, none) => intVal

def GetAnnotationWebsocketEnabled (pfx : String) (ingress : Ingress) : Int :=
  match ingress.GetAnnotations ( WebsocketEnabledAnnotation pfx) with
  | none => defaultWebsocketEnabled
  | some val => if val = enabled then 1 else 0

/-! ## The ingresses of the scenarios -/

/-- The ingress of the scenario: only tcp-keep-alive = "enabled" and
tcp-keep-alive-idle = "30". -/
def keepAliveScenario (pfx : String) : Ingress :=
  (Ingress.empty.set ( TCPKeepAliveEnabledAnnotation pfx) "enabled").set
    ( TCPKeepAliveIdleAnnotation pfx) "30"

/-- An ingress with a well-formed idle time and nothing else. -/
def idleOnly : Ingress :=
  Ingress.empty.set ( TCPKeepAliveIdleAnnotation "io.cilium") "30"

/-- The ingress `idleOnly` with malformed values at three other keys. -/
def idleAmongMalformed : Ingress :=
  ((idleOnly.set ( TCPKeepAliveProbeIntervalAnnotation "io.cilium") "abc").set
    ( SecureNodePortAnnotation "io.cilium") "http").set
    ( TCPKeepAliveEnabledAnnotation "io.cilium") "yes"

/-- The ingress that is `ingress` with the entries (presence and value) at the
keys `k1` and `k2` exchanged. -/
def Ingress.exchange (ingress : Ingress) (k1 k2 : String) : Ingress :=
  ⟨fun key =>
    if key = k1 then ingress.Annotations k2
    else if key = k2 then ingress.Annotations k1
    else ingress.Annotations key⟩

/-! ## The value of an integer string and the list of keys -/

/-- The number a run of decimal digits denotes, from the accumulator `n` on. -/
def decimalValueFrom (n : Nat) (ds : List Char) : Nat :=
  ds.foldl (fun a c => a * 10 + (c.toNat - '0'.toNat)) n

/-- The number a run of decimal digits denotes. -/
def decimalValue (ds : List Char) : Nat := decimalValueFrom 0 ds

/-- The integer a base-10 integer string denotes. -/
def integerValue (s : String) : Int :=
  match s.data with
  | '+' :: ds => (decimalValue ds : Int)
  | '-' :: ds => -(decimalValue ds : Int)
  | ds => (decimalValue ds : Int)

/-- The nine annotation keys, in the order of the declarations. -/
def annotationKeys (pfx : String) : List String :=
  [ LBModeAnnotation pfx, ServiceTypeAnnotation pfx, InsecureNodePortAnnotation pfx,
    SecureNodePortAnnotation pfx, TCPKeepAliveEnabledAnnotation pfx,
    TCPKeepAliveIdleAnnotation pfx, TCPKeepAliveProbeIntervalAnnotation pfx,
    TCPKeepAliveProbeMaxFailuresAnnotation pfx, WebsocketEnabledAnnotation pfx]

/-- What follows the prefix in each of the nine keys. -/
def keySuffixes : List String :=
  [".ingress/loadbalancer-mode", ".ingress/service-type", ".ingress/insecure-node-port",
    ".ingress/secure-node-port", "/tcp-keep-alive", "/tcp-keep-alive-idle",
    "/tcp-keep-alive-probe-interval", "/tcp-keep-alive-probe-max-failures", "/websocket"]

/-! ## Facts about the digit loop -/

theorem digitVal_digitChar (d : Nat) (h : d < 10) : digitVal (Nat.digitChar d) = some d := by
  interval_cases d <;> rfl

theorem isDecimalDigit_digitChar (d : Nat) (h : d < 10) :
    isDecimalDigit (Nat.digitChar d) = true := by
  interval_cases d <;> rfl

theorem digitVal_of_not_digit (c : Char) (h : isDecimalDigit c = false) :
    digitVal c = none ∨ ∃ d, digitVal c = some d ∧ 10 ≤ d := by
  unfold isDecimalDigit at h
  unfold digitVal
  rw [decide_eq_false_iff_not] at h
  rw [if_neg h]
  split
  · exact Or.inr ⟨_, rfl, Nat.le_add_left _ _⟩
  · exact Or.inl rfl

theorem digitVal_of_digit (c : Char) (h : isDecimalDigit c = true) :
    ∃ d, digitVal c = some d ∧ d < 10 := by
  unfold isDecimalDigit at h
  unfold digitVal
  rw [decide_eq_true_iff] at h
  rw [if_pos h]
  refine ⟨_, rfl, ?_⟩
  have h2 := h.2
  have e0 : '0'.toNat = 48 := rfl
  have e9 : '9'.toNat = 57 := rfl
  omega

/-- A character that is not a decimal digit stops the loop with a syntax error. -/
theorem parseUintLoop_not_digit (s0 : String) (M : Nat) (c : Char) (cs : List Char) (n : Nat)
    (h : isDecimalDigit c = false) :
    parseUintLoop s0 M (c :: cs) n = (0, some (syntaxError fnParseUint s0)) := by
  rcases digitVal_of_not_digit c h with h | ⟨d, h, hd⟩
  · simp [parseUintLoop, h]
  · simp [parseUintLoop, h, hd]

/-- One turn of the loop on a decimal digit that keeps the accumulator within
`maxVal`. -/
theorem parseUintLoop_digit (s0 : String) (M : Nat) (hM : M < 2 ^ 64) (c : Char) (d : Nat)
    (hc : digitVal c = some d) (hd : d < 10) (cs : List Char) (n : Nat) (h : n * 10 + d ≤ M) :
    parseUintLoop s0 M (c :: cs) n = parseUintLoop s0 M cs (n * 10 + d) := by
  have h1 : ¬ (10 ≤ d) := by omega
  have h2 : ¬ (n ≥ maxUint64 / 10 + 1) := by
    have : maxUint64 / 10 + 1 = 1844674407370955162 := by decide
    norm_num at hM
    omega
  have h3 : n * 10 % 2 ^ 64 = n * 10 := Nat.mod_eq_of_lt (by omega)
  have h4 : (n * 10 + d) % 2 ^ 64 = n * 10 + d := Nat.mod_eq_of_lt (by omega)
  have h5 : ¬ (n * 10 + d < n * 10 ∨ n * 10 + d > M) := by omega
  rw [parseUintLoop]
  simp only [hc, ge_iff_le, h1, if_false]
  rw [if_neg h2]
  simp only [h3, h4]
  rw [if_neg h5]

/-- The outcome of the loop is a value without an error, the syntax error with
value 0, or the range error with value `maxVal`. -/
theorem parseUintLoop_cases (s0 : String) (M : Nat) (cs : List Char) :
    ∀ n, n ≤ M →
      ((parseUintLoop s0 M cs n).2 = none ∧ (parseUintLoop s0 M cs n).1 ≤ M) ∨
      parseUintLoop s0 M cs n = (0, some (syntaxError fnParseUint s0)) ∨
      parseUintLoop s0 M cs n = (M, some (rangeError fnParseUint s0)) := by
  induction cs with
  | nil => intro n hn; exact Or.inl ⟨rfl, hn⟩
  | cons c cs ih =>
    intro n hn
    rw [parseUintLoop]
    split
    · exact Or.inr (Or.inl rfl)
    · split
      · exact Or.inr (Or.inl rfl)
      · split
        · exact Or.inr (Or.inr rfl)
        · dsimp only
          split
          · exact Or.inr (Or.inr rfl)
          · rename_i h
            exact ih _ (by omega)

/-- A string with a character that is not a decimal digit makes the loop fail. -/
theorem parseUintLoop_error_of_not_all_digits (s0 : String) (M : Nat) (cs : List Char)
    (h : cs.all isDecimalDigit = false) :
    ∀ n, (parseUintLoop s0 M cs n).2 ≠ none := by
  induction cs with
  | nil => simp at h
  | cons c cs ih =>
    intro n
    cases hc : isDecimalDigit c with
    | false => rw [parseUintLoop_not_digit s0 M c cs n hc]; simp
    | true =>
      have hcs : cs.all isDecimalDigit = false := by
        rw [List.all_cons, hc, Bool.true_and] at h
        exact h
      rw [parseUintLoop]
      split
      · simp
      · split
        · simp
        · split
          · simp
          · dsimp only
            split
            · simp
            · exact ih hcs _

/-- The digits `Nat.toDigitsCore` puts in front of its accumulator, at base 10
and with enough fuel: a non-empty run of decimal digits that the loop reads
back as `n`. -/
theorem toDigitsCore_spec (fuel : Nat) : ∀ (n : Nat) (ds : List Char), n < fuel →
    ∃ l : List Char, Nat.toDigitsCore 10 fuel n ds = l ++ ds ∧ l ≠ [] ∧
      l.all isDecimalDigit = true ∧
      ∀ (s0 : String) (M : Nat) (rest : List Char), M < 2 ^ 64 → n ≤ M →
        parseUintLoop s0 M (l ++ rest) 0 = parseUintLoop s0 M rest n := by
  induction fuel with
  | zero => intro n ds h; omega
  | succ fuel ih =>
    intro n ds hn
    have hmod : n % 10 < 10 := Nat.mod_lt _ (by decide)
    rw [Nat.toDigitsCore]
    by_cases h0 : n / 10 = 0
    · have hlt : n < 10 := by omega
      refine ⟨[Nat.digitChar (n % 10)], by simp [h0], by simp, ?_, ?_⟩
      · simp [isDecimalDigit_digitChar _ hmod]
      · intro s0 M rest hM hle
        have hnn : n % 10 = n := Nat.mod_eq_of_lt hlt
        rw [hnn, List.singleton_append,
          parseUintLoop_digit s0 M hM _ n (digitVal_digitChar n hlt) hlt rest 0 (by omega)]
        simp
    · obtain ⟨l, hl, hne, hall, hloop⟩ :=
        ih (n / 10) (Nat.digitChar (n % 10) :: ds) (by omega)
      refine ⟨l ++ [Nat.digitChar (n % 10)], by simp [h0, hl], by simp, ?_, ?_⟩
      · simp [List.all_append, hall, isDecimalDigit_digitChar _ hmod]
      · intro s0 M rest hM hle
        rw [List.append_assoc, hloop s0 M _ hM (by omega), List.singleton_append,
          parseUintLoop_digit s0 M hM _ (n % 10) (digitVal_digitChar _ hmod) hmod rest (n / 10)
            (by omega)]
        congr 1
        omega

/-- The rendering of a natural number: a non-empty run of decimal digits that
the loop reads back as the number. -/
theorem repr_spec (n : Nat) :
    (Nat.repr n).data ≠ [] ∧ (Nat.repr n).data.all isDecimalDigit = true ∧
      ∀ (s0 : String) (M : Nat), M < 2 ^ 64 → n ≤ M →
        parseUintLoop s0 M (Nat.repr n).data 0 = (n, none) := by
  obtain ⟨l, hl, hne, hall, hloop⟩ := toDigitsCore_spec (n + 1) n [] (by omega)
  have hd : (Nat.repr n).data = l := by
    simp [Nat.repr, Nat.toDigits, hl, List.asString]
  rw [hd]
  refine ⟨hne, hall, ?_⟩
  intro s0 M hM hle
  have := hloop s0 M [] hM hle
  simpa [parseUintLoop] using this

theorem data_ne_nil_of_ne_empty (s : String) (h : s.data ≠ []) : s ≠ "" := by
  intro hs
  apply h
  rw [hs]

/-- Parsing the rendering of `n` as an unsigned integer of `bitSize` bits. -/
theorem ParseUint_repr (n bitSize : Nat) (hb : 0 < bitSize) (hb64 : bitSize ≤ 64)
    (hn : n < 2 ^ bitSize) : ParseUint (Nat.repr n) bitSize = (n, none) := by
  obtain ⟨hne, -, hloop⟩ := repr_spec n
  have hpow : 2 ^ bitSize ≤ 2 ^ 64 := Nat.pow_le_pow_right (by decide) hb64
  have hpos : 0 < 2 ^ bitSize := Nat.pow_pos (by decide)
  unfold ParseUint
  rw [if_neg (data_ne_nil_of_ne_empty _ hne), if_neg (by omega), if_neg (by omega)]
  exact hloop _ _ (by omega) (by omega)

/-- The rendering of a natural number carries no sign. -/
theorem pickSign_repr (n : Nat) : pickSign (Nat.repr n) = (false, Nat.repr n) := by
  obtain ⟨hne, hall, -⟩ := repr_spec n
  unfold pickSign
  split
  · rename_i rest h
    rw [h] at hall
    simp [isDecimalDigit] at hall
  · rename_i rest h
    rw [h] at hall
    simp [isDecimalDigit] at hall
  · rfl

theorem pickSign_neg (s : String) : pickSign ("-" ++ s) = (true, s) := by
  unfold pickSign
  simp [String.data_append]

theorem toInt64_of_lt (k : Nat) (h : k < 2 ^ 63) : toInt64 k = k := by
  unfold toInt64
  norm_num at h ⊢
  omega

/-- Format then parse: `ParseInt` reads the rendering of a non-negative `n`
below `2 ^ (bitSize - 1)` back as `n`, for the two sizes the accessors use. -/
theorem ParseInt_repr (n bitSize : Nat) (hb : bitSize = 32 ∨ bitSize = 64)
    (hn : n < 2 ^ (bitSize - 1)) : ParseInt (Nat.repr n) bitSize = ((n : Int), none) := by
  obtain ⟨hne, -, -⟩ := repr_spec n
  unfold ParseInt
  rw [if_neg (data_ne_nil_of_ne_empty _ hne)]
  simp only [pickSign_repr]
  rcases hb with rfl | rfl
  · rw [ParseUint_repr n 32 (by decide) (by decide) (by norm_num at hn ⊢; omega)]
    norm_num at hn
    have h63 : n < 2 ^ 63 := by norm_num; omega
    simp [toInt64_of_lt n h63]
    omega
  · rw [ParseUint_repr n 64 (by decide) (by decide) (by norm_num at hn ⊢; omega)]
    norm_num at hn
    have h63 : n < 2 ^ 63 := by norm_num; omega
    simp [toInt64_of_lt n h63]
    omega

/-- Format then parse: `ParseInt` reads the rendering of `-k` back as `-k`, for
`0 < k ≤ 2 ^ (bitSize - 1)` and the two sizes the accessors use. -/
theorem ParseInt_neg_repr (k bitSize : Nat) (hb : bitSize = 32 ∨ bitSize = 64)
    (hk : 0 < k) (hle : k ≤ 2 ^ (bitSize - 1)) :
    ParseInt ("-" ++ Nat.repr k) bitSize = (-(k : Int), none) := by
  have hne : "-" ++ Nat.repr k ≠ "" := by
    apply data_ne_nil_of_ne_empty
    simp [String.data_append]
  unfold ParseInt
  rw [if_neg hne]
  simp only [pickSign_neg]
  rcases hb with rfl | rfl
  · rw [ParseUint_repr k 32 (by decide) (by decide) (by norm_num at hle ⊢; omega)]
    norm_num at hle
    have h63 : k < 2 ^ 63 := by norm_num; omega
    have hk2 : ¬ (2147483648 < k) := by omega
    have e : toInt64 (-(k : Int)) = -(k : Int) := by unfold toInt64; omega
    simp [toInt64_of_lt k h63, hk2, e]
  · rw [ParseUint_repr k 64 (by decide) (by decide) (by norm_num at hle ⊢; omega)]
    norm_num at hle
    have hk2 : ¬ (9223372036854775808 < k) := by omega
    have e : toInt64 (-(toInt64 (k : Int))) = -(k : Int) := by unfold toInt64; omega
    simp [hk2, e]

/-- Format then parse, for every integer of the signed `bitSize`-bit range. -/
theorem ParseInt_FormatInt (i : Int) (bitSize : Nat) (hb : bitSize = 32 ∨ bitSize = 64)
    (hlo : -(2 ^ (bitSize - 1) : Int) ≤ i) (hhi : i < 2 ^ (bitSize - 1)) :
    ParseInt (FormatInt i) bitSize = (i, none) := by
  unfold FormatInt
  by_cases hneg : i < 0
  · rw [if_pos hneg]
    have hi : i = -(i.natAbs : Int) := by omega
    have hle : i.natAbs ≤ 2 ^ (bitSize - 1) := by
      rcases hb with rfl | rfl <;> norm_num at hlo ⊢ <;> omega
    rw [ParseInt_neg_repr i.natAbs bitSize hb (by omega) hle, ← hi]
  · rw [if_neg hneg]
    have hi : i = (i.natAbs : Int) := by omega
    have hlt : i.natAbs < 2 ^ (bitSize - 1) := by
      rcases hb with rfl | rfl <;> norm_num at hhi ⊢ <;> omega
    rw [ParseInt_repr i.natAbs bitSize hb hlt, ← hi]

/-- The outcome of `ParseUint`: a value without an error, the syntax error
with value 0, or the range error with the largest value. -/
theorem ParseUint_cases (s : String) (bitSize : Nat) (hb : bitSize = 32 ∨ bitSize = 64) :
    (ParseUint s bitSize).2 = none ∨
    ParseUint s bitSize = (0, some (syntaxError fnParseUint s)) ∨
    ParseUint s bitSize = (2 ^ bitSize - 1, some (rangeError fnParseUint s)) := by
  unfold ParseUint
  split
  · exact Or.inr (Or.inl rfl)
  · rw [if_neg (by omega), if_neg (by omega)]
    rcases parseUintLoop_cases s (2 ^ bitSize - 1) s.data 0 (Nat.zero_le _) with h | h | h
    · exact Or.inl h.1
    · exact Or.inr (Or.inl h)
    · exact Or.inr (Or.inr h)

/-- An error of `ParseUint` on the unsigned part is an error of `ParseInt`. -/
theorem ParseInt_error_of_ParseUint_error (s : String) (bitSize : Nat)
    (hb : bitSize = 32 ∨ bitSize = 64)
    (h : (ParseUint (pickSign s).2 bitSize).2 ≠ none) : (ParseInt s bitSize).2 ≠ none := by
  unfold ParseInt
  split
  · simp
  · rcases ParseUint_cases (pickSign s).2 bitSize hb with h1 | h1 | h1
    · exact absurd h1 h
    · simp [h1, syntaxError]
    · simp only [h1, rangeError]
      rcases hb with rfl | rfl <;> cases (pickSign s).1 <;> simp

/-- The unsigned part of a string that is not a base-10 integer string is
empty or has a character that is not a decimal digit. -/
theorem pickSign_of_not_integer (s : String) (h : isBase10Integer s = false) :
    (pickSign s).2.data = [] ∨ (pickSign s).2.data.all isDecimalDigit = false := by
  unfold isBase10Integer at h
  unfold pickSign
  split at h
  · rename_i ds hs
    cases ds <;> simp_all
  · rename_i ds hs
    cases ds <;> simp_all
  · cases hd : s.data <;> simp_all

theorem ParseUint_error_of_not_digits (s : String) (bitSize : Nat)
    (h : s.data = [] ∨ s.data.all isDecimalDigit = false) : (ParseUint s bitSize).2 ≠ none := by
  unfold ParseUint
  split
  · simp
  · split
    · simp
    · rcases h with h | h
      · rename_i hs _
        exact absurd (String.ext h) hs
      · exact parseUintLoop_error_of_not_all_digits _ _ _ h 0

/-- The parser `ParseInt` fails on every string that is not a base-10 integer string. -/
theorem ParseInt_error_of_not_integer (s : String) (bitSize : Nat)
    (hb : bitSize = 32 ∨ bitSize = 64) (h : isBase10Integer s = false) :
    (ParseInt s bitSize).2 ≠ none :=
  ParseInt_error_of_ParseUint_error s bitSize hb
    (ParseUint_error_of_not_digits _ _ (pickSign_of_not_integer s h))

/-! ## Facts about the annotation source -/

theorem Ingress.get_set_self (ingress : Ingress) (k v : String) :
    (ingress.set k v).GetAnnotations k = some v := by
  simp [Ingress.set, Ingress.GetAnnotations]

theorem Ingress.get_set_of_ne (ingress : Ingress) (k v key : String) (h : key ≠ k) :
    (ingress.set k v).GetAnnotations key = ingress.GetAnnotations key := by
  simp [Ingress.set, Ingress.GetAnnotations, h]

theorem Ingress.get_empty (k : String) : Ingress.empty.GetAnnotations k = none := rfl

/-- Two keys with the same prefix and different suffixes are different. -/
theorem key_ne_of_suffix_ne (pfx a b : String) (h : a ≠ b) : pfx ++ a ≠ pfx ++ b := by
  intro hab
  apply h
  have hd := congrArg String.data hab
  rw [String.data_append, String.data_append] at hd
  exact String.ext (List.append_cancel_left hd)

/-! ## The claims -/

/-- C1: an accessor whose key is absent from the annotations (in particular
on an ingress without annotations) returns its documented default:
load-balancer mode the empty string, service type "LoadBalancer", the two
node-port accessors no value and no error, keep-alive enabled 1, idle 10,
probe interval 5, probe max failures 10, websocket enabled 0. -/
theorem absent_key_gives_default (pfx : String) (ingress : Ingress) :
    (ingress.GetAnnotations ( LBModeAnnotation pfx) = none →
      GetAnnotationIngressLoadbalancerMode pfx ingress = "") ∧
    (ingress.GetAnnotations ( ServiceTypeAnnotation pfx) = none →
      GetAnnotationServiceType pfx ingress = "LoadBalancer") ∧
    (ingress.GetAnnotations ( SecureNodePortAnnotation pfx) = none →
      GetAnnotationSecureNodePort pfx ingress = (none, none)) ∧
    (ingress.GetAnnotations ( InsecureNodePortAnnotation pfx) = none →
      GetAnnotationInsecureNodePort pfx ingress = (none, none)) ∧
    (ingress.GetAnnotations ( TCPKeepAliveEnabledAnnotation pfx) = none →
      GetAnnotationTCPKeepAliveEnabled pfx ingress = 1) ∧
    (ingress.GetAnnotations ( TCPKeepAliveIdleAnnotation pfx) = none →
      GetAnnotationTCPKeepAliveIdle pfx ingress = 10) ∧
    (ingress.GetAnnotations ( TCPKeepAliveProbeIntervalAnnotation pfx) = none →
      GetAnnotationTCPKeepAliveProbeInterval pfx ingress = 5) ∧
    (ingress.GetAnnotations ( TCPKeepAliveProbeMaxFailuresAnnotation pfx) = none →
      GetAnnotationTCPKeepAliveProbeMaxFailures pfx ingress = 10) ∧
    (ingress.GetAnnotations ( WebsocketEnabledAnnotation pfx) = none →
      GetAnnotationWebsocketEnabled pfx ingress = 0) := by
  refine ⟨?_, ?_, ?_, ?_, ?_, ?_, ?_, ?_, ?_⟩ <;> intro h
  · simp [GetAnnotationIngressLoadbalancerMode, h]
  · simp [GetAnnotationServiceType, h, ServiceTypeLoadBalancer]
  · simp [GetAnnotationSecureNodePort, h]
  · simp [GetAnnotationInsecureNodePort, h]
  · simp [GetAnnotationTCPKeepAliveEnabled, h, defaultTCPKeepAliveEnabled]
  · simp [GetAnnotationTCPKeepAliveIdle, h, defaultTCPKeepAliveInitialIdle]
  · simp [GetAnnotationTCPKeepAliveProbeInterval, h, defaultTCPKeepAliveProbeInterval]
  · simp [GetAnnotationTCPKeepAliveProbeMaxFailures, h, defaultTCPKeepAliveMaxProbeCount]
  · simp [GetAnnotationWebsocketEnabled, h, defaultWebsocketEnabled]

/-- The scenario of C1: on the ingress without annotations every accessor
returns its default and none signals an error. -/
theorem absent_key_gives_default_witness :
    GetAnnotationIngressLoadbalancerMode "io.cilium" Ingress.empty = "" ∧
    GetAnnotationServiceType "io.cilium" Ingress.empty = "LoadBalancer" ∧
    GetAnnotationSecureNodePort "io.cilium" Ingress.empty = (none, none) ∧
    GetAnnotationInsecureNodePort "io.cilium" Ingress.empty = (none, none) ∧
    GetAnnotationTCPKeepAliveEnabled "io.cilium" Ingress.empty = 1 ∧
    GetAnnotationTCPKeepAliveIdle "io.cilium" Ingress.empty = 10 ∧
    GetAnnotationTCPKeepAliveProbeInterval "io.cilium" Ingress.empty = 5 ∧
    GetAnnotationTCPKeepAliveProbeMaxFailures "io.cilium" Ingress.empty = 10 ∧
    GetAnnotationWebsocketEnabled "io.cilium" Ingress.empty = 0 :=
  have h := absent_key_gives_default "io.cilium" Ingress.empty
  ⟨h.1 rfl, h.2.1 rfl, h.2.2.1 rfl, h.2.2.2.1 rfl, h.2.2.2.2.1 rfl, h.2.2.2.2.2.1 rfl,
    h.2.2.2.2.2.2.1 rfl, h.2.2.2.2.2.2.2.1 rfl, h.2.2.2.2.2.2.2.2 rfl⟩

/-- C2, as stated, fails: 2147483648 is an unsigned 32-bit integer, and with
its base-10 rendering stored at the node-port key both node-port accessors
return no value and the range error of `ParseInt`, which parses a signed
32-bit integer. -/
theorem node_port_roundtrip_fails_above_int32 :
    (2147483648 : Nat) < 2 ^ 32 ∧
    GetAnnotationSecureNodePort "io.cilium"
        (Ingress.empty.set ( SecureNodePortAnnotation "io.cilium") (FormatUint 2147483648)) =
      (none, some (rangeError fnParseInt "2147483648")) ∧
    GetAnnotationInsecureNodePort "io.cilium"
        (Ingress.empty.set ( InsecureNodePortAnnotation "io.cilium") (FormatUint 2147483648)) =
      (none, some (rangeError fnParseInt "2147483648")) := by
  decide

/-- C2, amended: for every integer `p` with `0 ≤ p < 2 ^ 31`, when the secure
(respectively insecure) node-port key is present with the base-10 rendering
of `p`, the secure (respectively insecure) node-port accessor returns the
value `p` and no error. -/
theorem node_port_roundtrip (pfx : String) (ingress : Ingress) (p : Nat) (hp : p < 2 ^ 31) :
    (ingress.GetAnnotations ( SecureNodePortAnnotation pfx) = some (FormatUint p) →
      GetAnnotationSecureNodePort pfx ingress = (some p, none)) ∧
    (ingress.GetAnnotations ( InsecureNodePortAnnotation pfx) = some (FormatUint p) →
      GetAnnotationInsecureNodePort pfx ingress = (some p, none)) := by
  have hparse : ParseInt (FormatUint p) 32 = ((p : Int), none) :=
    ParseInt_repr p 32 (Or.inl rfl) hp
  have hconv : toUint32 (p : Int) = p := by
    unfold toUint32
    norm_num at hp ⊢
    omega
  constructor <;> intro h
  · simp [GetAnnotationSecureNodePort, h, hparse, hconv]
  · simp [GetAnnotationInsecureNodePort, h, hparse, hconv]

/-- The amended C2 at port 30080, stored at each node-port key. -/
theorem node_port_roundtrip_witness :
    GetAnnotationSecureNodePort "io.cilium"
        (Ingress.empty.set ( SecureNodePortAnnotation "io.cilium") (FormatUint 30080)) =
      (some 30080, none) ∧
    GetAnnotationInsecureNodePort "io.cilium"
        (Ingress.empty.set ( InsecureNodePortAnnotation "io.cilium") (FormatUint 30080)) =
      (some 30080, none) :=
  ⟨(node_port_roundtrip "io.cilium" _ 30080 (by decide)).1 (Ingress.get_set_self _ _ _),
   (node_port_roundtrip "io.cilium" _ 30080 (by decide)).2 (Ingress.get_set_self _ _ _)⟩

/-- C3: for every signed 64-bit integer `n` (zero and negative included), when
the key of a keep-alive numeric accessor (idle, probe interval, probe max
failures) is present with the base-10 rendering of `n`, the accessor returns
exactly `n`. -/
theorem keep_alive_roundtrip (pfx : String) (ingress : Ingress) (n : Int)
    (hlo : -(2 ^ 63 : Int) ≤ n) (hhi : n < 2 ^ 63) :
    (ingress.GetAnnotations ( TCPKeepAliveIdleAnnotation pfx) = some (FormatInt n) →
      GetAnnotationTCPKeepAliveIdle pfx ingress = n) ∧
    (ingress.GetAnnotations ( TCPKeepAliveProbeIntervalAnnotation pfx) = some (FormatInt n) →
      GetAnnotationTCPKeepAliveProbeInterval pfx ingress = n) ∧
    (ingress.GetAnnotations ( TCPKeepAliveProbeMaxFailuresAnnotation pfx) = some (FormatInt n) →
      GetAnnotationTCPKeepAliveProbeMaxFailures pfx ingress = n) := by
  have hparse : ParseInt (FormatInt n) 64 = (n, none) :=
    ParseInt_FormatInt n 64 (Or.inr rfl) hlo hhi
  refine ⟨?_, ?_, ?_⟩ <;> intro h
  · simp [GetAnnotationTCPKeepAliveIdle, h, hparse]
  · simp [GetAnnotationTCPKeepAliveProbeInterval, h, hparse]
  · simp [GetAnnotationTCPKeepAliveProbeMaxFailures, h, hparse]

/-- C3 at the smallest signed 64-bit integer, at zero and at the largest one. -/
theorem keep_alive_roundtrip_witness :
    GetAnnotationTCPKeepAliveIdle "io.cilium"
        (Ingress.empty.set ( TCPKeepAliveIdleAnnotation "io.cilium")
          (FormatInt (-9223372036854775808))) = -9223372036854775808 ∧
    GetAnnotationTCPKeepAliveProbeInterval "io.cilium"
        (Ingress.empty.set ( TCPKeepAliveProbeIntervalAnnotation "io.cilium")
          (FormatInt 0)) = 0 ∧
    GetAnnotationTCPKeepAliveProbeMaxFailures "io.cilium"
        (Ingress.empty.set ( TCPKeepAliveProbeMaxFailuresAnnotation "io.cilium")
          (FormatInt 9223372036854775807)) = 9223372036854775807 :=
  ⟨(keep_alive_roundtrip "io.cilium" _ (-9223372036854775808) (by decide) (by decide)).1
      (Ingress.get_set_self _ _ _),
   (keep_alive_roundtrip "io.cilium" _ 0 (by decide) (by decide)).2.1
      (Ingress.get_set_self _ _ _),
   (keep_alive_roundtrip "io.cilium" _ 9223372036854775807 (by decide) (by decide)).2.2
      (Ingress.get_set_self _ _ _)⟩

/-- C4: when a node-port key is present with a value that is not a base-10
integer string (such as "abc" or the empty string), the corresponding
node-port accessor returns no value together with the error of the integer
parser: an absent result, not a pointer to zero. -/
theorem node_port_malformed (pfx : String) (ingress : Ingress) (v : String)
    (hv : isBase10Integer v = false) :
    (ingress.GetAnnotations ( SecureNodePortAnnotation pfx) = some v →
      ∃ err, (ParseInt v 32).2 = some err ∧
        GetAnnotationSecureNodePort pfx ingress = (none, some err)) ∧
    (ingress.GetAnnotations ( InsecureNodePortAnnotation pfx) = some v →
      ∃ err, (ParseInt v 32).2 = some err ∧
        GetAnnotationInsecureNodePort pfx ingress = (none, some err)) := by
  have herr := ParseInt_error_of_not_integer v 32 (Or.inl rfl) hv
  obtain ⟨err, he⟩ := Option.ne_none_iff_exists'.mp herr
  have hp : ParseInt v 32 = ((ParseInt v 32).1, some err) := Prod.ext rfl he
  constructor <;> intro h <;> refine ⟨err, he, ?_⟩
  · unfold GetAnnotationSecureNodePort
    rw [h]
    dsimp only
    rw [hp]
  · unfold GetAnnotationInsecureNodePort
    rw [h]
    dsimp only
    rw [hp]

/-- C4 at the values "abc" (secure key) and "" (insecure key): no value, and
the syntax error of `ParseInt`. -/
theorem node_port_malformed_witness :
    (∃ err, (ParseInt "abc" 32).2 = some err ∧
      GetAnnotationSecureNodePort "io.cilium"
        (Ingress.empty.set ( SecureNodePortAnnotation "io.cilium") "abc") = (none, some err)) ∧
    (∃ err, (ParseInt "" 32).2 = some err ∧
      GetAnnotationInsecureNodePort "io.cilium"
        (Ingress.empty.set ( InsecureNodePortAnnotation "io.cilium") "") = (none, some err)) :=
  ⟨(node_port_malformed "io.cilium" _ "abc" (by decide)).1 (Ingress.get_set_self _ _ _),
   (node_port_malformed "io.cilium" _ "" (by decide)).2 (Ingress.get_set_self _ _ _)⟩

/-- The three outcomes of a node-port accessor, stated on the body the two
accessors share: `o` is the lookup of the key. -/
theorem node_port_outcomes_of_lookup (o : Option String) (r : Option Nat × Option NumError)
    (hr : r = (match o with
      | none => (none, none)
      | some val =>
        match ParseInt val 32 with
        | (_, some err) => (none, some err)
        | (intVal, none) => (some (toUint32 intVal), none))) :
    (r = (none, none) ↔ o = none) ∧
    ((r.1 = none ∧ r.2 ≠ none) ↔ ∃ v, o = some v ∧ (ParseInt v 32).2 ≠ none) ∧
    ((r.1 ≠ none ∧ r.2 = none) ↔ ∃ v, o = some v ∧ (ParseInt v 32).2 = none) ∧
    ¬ (r.1 ≠ none ∧ r.2 ≠ none) ∧
    (o = none → r.2 = none) := by
  subst hr
  cases o with
  | none => simp
  | some v =>
    rcases hp : ParseInt v 32 with ⟨n, _ | err⟩ <;> simp [hp]

/-- C5: each node-port accessor yields exactly one of three outcomes: no value
and no error if and only if its key is absent; no value and an error if and
only if its key is present and parsing its value as an integer fails; a value
and no error if and only if its key is present and parsing its value
succeeds. It never returns a value together with an error, and signals no
error for an absent key. -/
theorem node_port_outcomes (pfx : String) (ingress : Ingress) :
    ((GetAnnotationSecureNodePort pfx ingress = (none, none) ↔
        ingress.GetAnnotations ( SecureNodePortAnnotation pfx) = none) ∧
      (((GetAnnotationSecureNodePort pfx ingress).1 = none ∧
          (GetAnnotationSecureNodePort pfx ingress).2 ≠ none) ↔
        ∃ v, ingress.GetAnnotations ( SecureNodePortAnnotation pfx) = some v ∧
          (ParseInt v 32).2 ≠ none) ∧
      (((GetAnnotationSecureNodePort pfx ingress).1 ≠ none ∧
          (GetAnnotationSecureNodePort pfx ingress).2 = none) ↔
        ∃ v, ingress.GetAnnotations ( SecureNodePortAnnotation pfx) = some v ∧
          (ParseInt v 32).2 = none) ∧
      ¬ ((GetAnnotationSecureNodePort pfx ingress).1 ≠ none ∧
          (GetAnnotationSecureNodePort pfx ingress).2 ≠ none) ∧
      (ingress.GetAnnotations ( SecureNodePortAnnotation pfx) = none →
        (GetAnnotationSecureNodePort pfx ingress).2 = none)) ∧
    ((GetAnnotationInsecureNodePort pfx ingress = (none, none) ↔
        ingress.GetAnnotations ( InsecureNodePortAnnotation pfx) = none) ∧
      (((GetAnnotationInsecureNodePort pfx ingress).1 = none ∧
          (GetAnnotationInsecureNodePort pfx ingress).2 ≠ none) ↔
        ∃ v, ingress.GetAnnotations ( InsecureNodePortAnnotation pfx) = some v ∧
          (ParseInt v 32).2 ≠ none) ∧
      (((GetAnnotationInsecureNodePort pfx ingress).1 ≠ none ∧
          (GetAnnotationInsecureNodePort pfx ingress).2 = none) ↔
        ∃ v, ingress.GetAnnotations ( InsecureNodePortAnnotation pfx) = some v ∧
          (ParseInt v 32).2 = none) ∧
      ¬ ((GetAnnotationInsecureNodePort pfx ingress).1 ≠ none ∧
          (GetAnnotationInsecureNodePort pfx ingress).2 ≠ none) ∧
      (ingress.GetAnnotations ( InsecureNodePortAnnotation pfx) = none →
        (GetAnnotationInsecureNodePort pfx ingress).2 = none)) :=
  ⟨node_port_outcomes_of_lookup _ _ rfl, node_port_outcomes_of_lookup _ _ rfl⟩

/-- C5 on three inputs: the key absent, present with "abc", present with "443". -/
theorem node_port_outcomes_witness :
    GetAnnotationSecureNodePort "io.cilium" Ingress.empty = (none, none) ∧
    ((GetAnnotationSecureNodePort "io.cilium"
        (Ingress.empty.set ( SecureNodePortAnnotation "io.cilium") "abc")).1 = none ∧
      (GetAnnotationSecureNodePort "io.cilium"
        (Ingress.empty.set ( SecureNodePortAnnotation "io.cilium") "abc")).2 ≠ none) ∧
    ((GetAnnotationInsecureNodePort "io.cilium"
        (Ingress.empty.set ( InsecureNodePortAnnotation "io.cilium") "443")).1 ≠ none ∧
      (GetAnnotationInsecureNodePort "io.cilium"
        (Ingress.empty.set ( InsecureNodePortAnnotation "io.cilium") "443")).2 = none) :=
  ⟨(node_port_outcomes "io.cilium" Ingress.empty).1.1.mpr rfl,
   (node_port_outcomes "io.cilium" _).1.2.1.mpr
      ⟨"abc", Ingress.get_set_self _ _ _, by decide⟩,
   (node_port_outcomes "io.cilium" _).2.2.2.1.mpr
      ⟨"443", Ingress.get_set_self _ _ _, by decide⟩⟩

/-- C6: when the key of a tri-state accessor (TCP keep-alive enabled,
websocket enabled) is present, the result is 1 if the value is exactly the
string "enabled" and 0 for every other string. -/
theorem tri_state_present (pfx : String) (ingress : Ingress) (v : String) :
    (ingress.GetAnnotations ( TCPKeepAliveEnabledAnnotation pfx) = some v →
      GetAnnotationTCPKeepAliveEnabled pfx ingress = if v = "enabled" then 1 else 0) ∧
    (ingress.GetAnnotations ( WebsocketEnabledAnnotation pfx) = some v →
      GetAnnotationWebsocketEnabled pfx ingress = if v = "enabled" then 1 else 0) := by
  constructor <;> intro h
  · simp [GetAnnotationTCPKeepAliveEnabled, h, enabled]
  · simp [GetAnnotationWebsocketEnabled, h, enabled]

/-- C6 on the values "enabled", "true", "Enabled", "", "0" and "1". -/
theorem tri_state_present_witness :
    GetAnnotationTCPKeepAliveEnabled "io.cilium"
      (Ingress.empty.set ( TCPKeepAliveEnabledAnnotation "io.cilium") "enabled") = 1 ∧
    GetAnnotationWebsocketEnabled "io.cilium"
      (Ingress.empty.set ( WebsocketEnabledAnnotation "io.cilium") "enabled") = 1 ∧
    GetAnnotationTCPKeepAliveEnabled "io.cilium"
      (Ingress.empty.set ( TCPKeepAliveEnabledAnnotation "io.cilium") "true") = 0 ∧
    GetAnnotationWebsocketEnabled "io.cilium"
      (Ingress.empty.set ( WebsocketEnabledAnnotation "io.cilium") "Enabled") = 0 ∧
    GetAnnotationTCPKeepAliveEnabled "io.cilium"
      (Ingress.empty.set ( TCPKeepAliveEnabledAnnotation "io.cilium") "") = 0 ∧
    GetAnnotationWebsocketEnabled "io.cilium"
      (Ingress.empty.set ( WebsocketEnabledAnnotation "io.cilium") "0") = 0 ∧
    GetAnnotationTCPKeepAliveEnabled "io.cilium"
      (Ingress.empty.set ( TCPKeepAliveEnabledAnnotation "io.cilium") "1") = 0 :=
  ⟨(tri_state_present "io.cilium" _ "enabled").1 (Ingress.get_set_self _ _ _),
   (tri_state_present "io.cilium" _ "enabled").2 (Ingress.get_set_self _ _ _),
   (tri_state_present "io.cilium" _ "true").1 (Ingress.get_set_self _ _ _),
   (tri_state_present "io.cilium" _ "Enabled").2 (Ingress.get_set_self _ _ _),
   (tri_state_present "io.cilium" _ "").1 (Ingress.get_set_self _ _ _),
   (tri_state_present "io.cilium" _ "0").2 (Ingress.get_set_self _ _ _),
   (tri_state_present "io.cilium" _ "1").1 (Ingress.get_set_self _ _ _)⟩

/-- C7: when the key of a keep-alive numeric accessor is present with a value
that is not a base-10 integer string (such as "abc", "30s", " 30" or the empty
string), the accessor returns its documented default (idle 10, probe interval
5, probe max failures 10), which is the result it gives on an ingress without
annotations; its result type carries no error. -/
theorem keep_alive_malformed (pfx : String) (ingress : Ingress) (v : String)
    (hv : isBase10Integer v = false) :
    (ingress.GetAnnotations ( TCPKeepAliveIdleAnnotation pfx) = some v →
      GetAnnotationTCPKeepAliveIdle pfx ingress = 10 ∧
      GetAnnotationTCPKeepAliveIdle pfx ingress =
        GetAnnotationTCPKeepAliveIdle pfx Ingress.empty) ∧
    (ingress.GetAnnotations ( TCPKeepAliveProbeIntervalAnnotation pfx) = some v →
      GetAnnotationTCPKeepAliveProbeInterval pfx ingress = 5 ∧
      GetAnnotationTCPKeepAliveProbeInterval pfx ingress =
        GetAnnotationTCPKeepAliveProbeInterval pfx Ingress.empty) ∧
    (ingress.GetAnnotations ( TCPKeepAliveProbeMaxFailuresAnnotation pfx) = some v →
      GetAnnotationTCPKeepAliveProbeMaxFailures pfx ingress = 10 ∧
      GetAnnotationTCPKeepAliveProbeMaxFailures pfx ingress =
        GetAnnotationTCPKeepAliveProbeMaxFailures pfx Ingress.empty) := by
  have herr := ParseInt_error_of_not_integer v 64 (Or.inr rfl) hv
  obtain ⟨err, he⟩ := Option.ne_none_iff_exists'.mp herr
  have hp : ParseInt v 64 = ((ParseInt v 64).1, some err) := Prod.ext rfl he
  refine ⟨?_, ?_, ?_⟩ <;> intro h
  · have h10 : GetAnnotationTCPKeepAliveIdle pfx ingress = 10 := by
      unfold GetAnnotationTCPKeepAliveIdle
      rw [h]
      dsimp only
      rw [hp]
      rfl
    exact ⟨h10, by rw [h10]; rfl⟩
  · have h5 : GetAnnotationTCPKeepAliveProbeInterval pfx ingress = 5 := by
      unfold GetAnnotationTCPKeepAliveProbeInterval
      rw [h]
      dsimp only
      rw [hp]
      rfl
    exact ⟨h5, by rw [h5]; rfl⟩
  · have h10 : GetAnnotationTCPKeepAliveProbeMaxFailures pfx ingress = 10 := by
      unfold GetAnnotationTCPKeepAliveProbeMaxFailures
      rw [h]
      dsimp only
      rw [hp]
      rfl
    exact ⟨h10, by rw [h10]; rfl⟩

/-- C7 on the values "abc", "30s", " 30" and "". -/
theorem keep_alive_malformed_witness :
    GetAnnotationTCPKeepAliveIdle "io.cilium"
      (Ingress.empty.set ( TCPKeepAliveIdleAnnotation "io.cilium") "abc") = 10 ∧
    GetAnnotationTCPKeepAliveProbeInterval "io.cilium"
      (Ingress.empty.set ( TCPKeepAliveProbeIntervalAnnotation "io.cilium") "30s") = 5 ∧
    GetAnnotationTCPKeepAliveProbeMaxFailures "io.cilium"
      (Ingress.empty.set ( TCPKeepAliveProbeMaxFailuresAnnotation "io.cilium") " 30") = 10 ∧
    GetAnnotationTCPKeepAliveIdle "io.cilium"
      (Ingress.empty.set ( TCPKeepAliveIdleAnnotation "io.cilium") "") = 10 :=
  ⟨((keep_alive_malformed "io.cilium" _ "abc" (by decide)).1 (Ingress.get_set_self _ _ _)).1,
   ((keep_alive_malformed "io.cilium" _ "30s" (by decide)).2.1 (Ingress.get_set_self _ _ _)).1,
   ((keep_alive_malformed "io.cilium" _ " 30" (by decide)).2.2 (Ingress.get_set_self _ _ _)).1,
   ((keep_alive_malformed "io.cilium" _ "" (by decide)).1 (Ingress.get_set_self _ _ _)).1⟩

/-- C8: the service-type accessor returns "LoadBalancer" when its key is
absent and the stored value, unchanged, when the key is present, whatever the
value: "NodePort" gives "NodePort" and a present empty string gives the empty
string. -/
theorem service_type_passthrough (pfx : String) (ingress : Ingress) :
    (ingress.GetAnnotations ( ServiceTypeAnnotation pfx) = none →
      GetAnnotationServiceType pfx ingress = "LoadBalancer") ∧
    (∀ v : String, ingress.GetAnnotations ( ServiceTypeAnnotation pfx) = some v →
      GetAnnotationServiceType pfx ingress = v) := by
  constructor
  · intro h
    simp [GetAnnotationServiceType, h, ServiceTypeLoadBalancer]
  · intro v h
    simp [GetAnnotationServiceType, h]

/-- C8 on the absent key and on the values "NodePort" and "". -/
theorem service_type_passthrough_witness :
    GetAnnotationServiceType "io.cilium" Ingress.empty = "LoadBalancer" ∧
    GetAnnotationServiceType "io.cilium"
      (Ingress.empty.set ( ServiceTypeAnnotation "io.cilium") "NodePort") = "NodePort" ∧
    GetAnnotationServiceType "io.cilium"
      (Ingress.empty.set ( ServiceTypeAnnotation "io.cilium") "") = "" ∧
    GetAnnotationServiceType "io.cilium"
      (Ingress.empty.set ( ServiceTypeAnnotation "io.cilium") "") ≠ "LoadBalancer" :=
  ⟨(service_type_passthrough "io.cilium" Ingress.empty).1 rfl,
   (service_type_passthrough "io.cilium" _).2 "NodePort" (Ingress.get_set_self _ _ _),
   (service_type_passthrough "io.cilium" _).2 "" (Ingress.get_set_self _ _ _),
   by rw [(service_type_passthrough "io.cilium" _).2 "" (Ingress.get_set_self _ _ _)]; decide⟩

/-- C9: the load-balancer-mode accessor returns the stored value, unchanged,
when its key is present and the empty string when the key is absent; so an
ingress without the key and one with the key set to the empty string give the
same result. -/
theorem loadbalancer_mode_passthrough (pfx : String) (ingress : Ingress) :
    (∀ v : String, ingress.GetAnnotations ( LBModeAnnotation pfx) = some v →
      GetAnnotationIngressLoadbalancerMode pfx ingress = v) ∧
    (ingress.GetAnnotations ( LBModeAnnotation pfx) = none →
      GetAnnotationIngressLoadbalancerMode pfx ingress = "") ∧
    (∀ other : Ingress, ingress.GetAnnotations ( LBModeAnnotation pfx) = none →
      other.GetAnnotations ( LBModeAnnotation pfx) = some "" →
      GetAnnotationIngressLoadbalancerMode pfx ingress =
        GetAnnotationIngressLoadbalancerMode pfx other) := by
  refine ⟨?_, ?_, ?_⟩
  · intro v h
    simp [GetAnnotationIngressLoadbalancerMode, h]
  · intro h
    simp [GetAnnotationIngressLoadbalancerMode, h]
  · intro other h1 h2
    simp [GetAnnotationIngressLoadbalancerMode, h1, h2]

/-- C9 on the value "dedicated", and on the absent key against the key set
to the empty string. -/
theorem loadbalancer_mode_passthrough_witness :
    GetAnnotationIngressLoadbalancerMode "io.cilium"
      (Ingress.empty.set ( LBModeAnnotation "io.cilium") "dedicated") = "dedicated" ∧
    GetAnnotationIngressLoadbalancerMode "io.cilium" Ingress.empty = "" ∧
    GetAnnotationIngressLoadbalancerMode "io.cilium" Ingress.empty =
      GetAnnotationIngressLoadbalancerMode "io.cilium"
        (Ingress.empty.set ( LBModeAnnotation "io.cilium") "") :=
  ⟨(loadbalancer_mode_passthrough "io.cilium" _).1 "dedicated" (Ingress.get_set_self _ _ _),
   (loadbalancer_mode_passthrough "io.cilium" Ingress.empty).2.1 rfl,
   (loadbalancer_mode_passthrough "io.cilium" Ingress.empty).2.2 _ rfl
      (Ingress.get_set_self _ _ _)⟩

/-- C10: the result of each accessor depends only on its own key: two
ingresses that agree on the entry at that key (absent in both, or present with
the same value) get the same result and the same error, whatever their other
entries hold. And the ingress holding only tcp-keep-alive = "enabled" and
tcp-keep-alive-idle = "30" gives enabled 1, idle 30, probe interval 5 and
probe max failures 10. -/
theorem accessor_reads_only_its_key (pfx : String) (a b : Ingress) :
    (a.GetAnnotations ( LBModeAnnotation pfx) = b.GetAnnotations ( LBModeAnnotation pfx) →
      GetAnnotationIngressLoadbalancerMode pfx a =
        GetAnnotationIngressLoadbalancerMode pfx b) ∧
    (a.GetAnnotations ( ServiceTypeAnnotation pfx) =
        b.GetAnnotations ( ServiceTypeAnnotation pfx) →
      GetAnnotationServiceType pfx a = GetAnnotationServiceType pfx b) ∧
    (a.GetAnnotations ( SecureNodePortAnnotation pfx) =
        b.GetAnnotations ( SecureNodePortAnnotation pfx) →
      GetAnnotationSecureNodePort pfx a = GetAnnotationSecureNodePort pfx b) ∧
    (a.GetAnnotations ( InsecureNodePortAnnotation pfx) =
        b.GetAnnotations ( InsecureNodePortAnnotation pfx) →
      GetAnnotationInsecureNodePort pfx a = GetAnnotationInsecureNodePort pfx b) ∧
    (a.GetAnnotations ( TCPKeepAliveEnabledAnnotation pfx) =
        b.GetAnnotations ( TCPKeepAliveEnabledAnnotation pfx) →
      GetAnnotationTCPKeepAliveEnabled pfx a = GetAnnotationTCPKeepAliveEnabled pfx b) ∧
    (a.GetAnnotations ( TCPKeepAliveIdleAnnotation pfx) =
        b.GetAnnotations ( TCPKeepAliveIdleAnnotation pfx) →
      GetAnnotationTCPKeepAliveIdle pfx a = GetAnnotationTCPKeepAliveIdle pfx b) ∧
    (a.GetAnnotations ( TCPKeepAliveProbeIntervalAnnotation pfx) =
        b.GetAnnotations ( TCPKeepAliveProbeIntervalAnnotation pfx) →
      GetAnnotationTCPKeepAliveProbeInterval pfx a =
        GetAnnotationTCPKeepAliveProbeInterval pfx b) ∧
    (a.GetAnnotations ( TCPKeepAliveProbeMaxFailuresAnnotation pfx) =
        b.GetAnnotations ( TCPKeepAliveProbeMaxFailuresAnnotation pfx) →
      GetAnnotationTCPKeepAliveProbeMaxFailures pfx a =
        GetAnnotationTCPKeepAliveProbeMaxFailures pfx b) ∧
    (a.GetAnnotations ( WebsocketEnabledAnnotation pfx) =
        b.GetAnnotations ( WebsocketEnabledAnnotation pfx) →
      GetAnnotationWebsocketEnabled pfx a = GetAnnotationWebsocketEnabled pfx b) ∧
    (GetAnnotationTCPKeepAliveEnabled pfx (keepAliveScenario pfx) = 1 ∧
      GetAnnotationTCPKeepAliveIdle pfx (keepAliveScenario pfx) = 30 ∧
      GetAnnotationTCPKeepAliveProbeInterval pfx (keepAliveScenario pfx) = 5 ∧
      GetAnnotationTCPKeepAliveProbeMaxFailures pfx (keepAliveScenario pfx) = 10) := by
  refine ⟨?_, ?_, ?_, ?_, ?_, ?_, ?_, ?_, ?_, ?_, ?_, ?_, ?_⟩
  · intro h; unfold GetAnnotationIngressLoadbalancerMode; rw [h]
  · intro h; unfold GetAnnotationServiceType; rw [h]
  · intro h; unfold GetAnnotationSecureNodePort; rw [h]
  · intro h; unfold GetAnnotationInsecureNodePort; rw [h]
  · intro h; unfold GetAnnotationTCPKeepAliveEnabled; rw [h]
  · intro h; unfold GetAnnotationTCPKeepAliveIdle; rw [h]
  · intro h; unfold GetAnnotationTCPKeepAliveProbeInterval; rw [h]
  · intro h; unfold GetAnnotationTCPKeepAliveProbeMaxFailures; rw [h]
  · intro h; unfold GetAnnotationWebsocketEnabled; rw [h]
  · have hne : TCPKeepAliveEnabledAnnotation pfx ≠ TCPKeepAliveIdleAnnotation pfx :=
      key_ne_of_suffix_ne pfx _ _ (by decide)
    have hget : (keepAliveScenario pfx).GetAnnotations ( TCPKeepAliveEnabledAnnotation pfx) =
        some "enabled" := by
      unfold keepAliveScenario
      rw [Ingress.get_set_of_ne _ _ _ _ hne, Ingress.get_set_self]
    simp [GetAnnotationTCPKeepAliveEnabled, hget, enabled]
  · have hget : (keepAliveScenario pfx).GetAnnotations ( TCPKeepAliveIdleAnnotation pfx) =
        some "30" := Ingress.get_set_self _ _ _
    have hparse : ParseInt "30" 64 = (30, none) := by decide
    simp [GetAnnotationTCPKeepAliveIdle, hget, hparse]
  · have hne1 : TCPKeepAliveProbeIntervalAnnotation pfx ≠ TCPKeepAliveIdleAnnotation pfx :=
      key_ne_of_suffix_ne pfx _ _ (by decide)
    have hne2 : TCPKeepAliveProbeIntervalAnnotation pfx ≠ TCPKeepAliveEnabledAnnotation pfx :=
      key_ne_of_suffix_ne pfx _ _ (by decide)
    have hget : (keepAliveScenario pfx).GetAnnotations
        ( TCPKeepAliveProbeIntervalAnnotation pfx) = none := by
      unfold keepAliveScenario
      rw [Ingress.get_set_of_ne _ _ _ _ hne1, Ingress.get_set_of_ne _ _ _ _ hne2,
        Ingress.get_empty]
    simp [GetAnnotationTCPKeepAliveProbeInterval, hget, defaultTCPKeepAliveProbeInterval]
  · have hne1 : TCPKeepAliveProbeMaxFailuresAnnotation pfx ≠ TCPKeepAliveIdleAnnotation pfx :=
      key_ne_of_suffix_ne pfx _ _ (by decide)
    have hne2 : TCPKeepAliveProbeMaxFailuresAnnotation pfx ≠
        TCPKeepAliveEnabledAnnotation pfx :=
      key_ne_of_suffix_ne pfx _ _ (by decide)
    have hget : (keepAliveScenario pfx).GetAnnotations
        ( TCPKeepAliveProbeMaxFailuresAnnotation pfx) = none := by
      unfold keepAliveScenario
      rw [Ingress.get_set_of_ne _ _ _ _ hne1, Ingress.get_set_of_ne _ _ _ _ hne2,
        Ingress.get_empty]
    simp [GetAnnotationTCPKeepAliveProbeMaxFailures, hget, defaultTCPKeepAliveMaxProbeCount]

/-- C10 on two ingresses that agree at the idle key and at the service-type
key and differ elsewhere: malformed values at other keys change neither
result. -/
theorem accessor_reads_only_its_key_witness :
    GetAnnotationTCPKeepAliveIdle "io.cilium" idleOnly =
      GetAnnotationTCPKeepAliveIdle "io.cilium" idleAmongMalformed ∧
    GetAnnotationServiceType "io.cilium" idleOnly =
      GetAnnotationServiceType "io.cilium" idleAmongMalformed ∧
    GetAnnotationInsecureNodePort "io.cilium" idleOnly =
      GetAnnotationInsecureNodePort "io.cilium" idleAmongMalformed :=
  ⟨(accessor_reads_only_its_key "io.cilium" idleOnly idleAmongMalformed).2.2.2.2.2.1
      (by decide),
   (accessor_reads_only_its_key "io.cilium" idleOnly idleAmongMalformed).2.1 (by decide),
   (accessor_reads_only_its_key "io.cilium" idleOnly idleAmongMalformed).2.2.2.1
      (by decide)⟩

/-! ## Facts about runs of digits -/

theorem digitVal_eq_of_digit (c : Char) (h : isDecimalDigit c = true) :
    digitVal c = some (c.toNat - '0'.toNat) ∧ c.toNat - '0'.toNat < 10 := by
  unfold isDecimalDigit at h
  unfold digitVal
  rw [decide_eq_true_iff] at h
  rw [if_pos h]
  refine ⟨rfl, ?_⟩
  have h2 := h.2
  have e0 : '0'.toNat = 48 := rfl
  have e9 : '9'.toNat = 57 := rfl
  omega

theorem decimalValueFrom_cons (n : Nat) (c : Char) (cs : List Char) :
    decimalValueFrom n (c :: cs) = decimalValueFrom (n * 10 + (c.toNat - '0'.toNat)) cs := rfl

theorem le_decimalValueFrom (ds : List Char) : ∀ n, n ≤ decimalValueFrom n ds := by
  induction ds with
  | nil => intro n; exact Nat.le_refl n
  | cons c cs ih =>
    intro n
    rw [decimalValueFrom_cons]
    exact Nat.le_trans (by omega) (ih _)

/-- One turn of the loop on a decimal digit that takes the accumulator beyond
`maxVal`: the range error, with `maxVal` as the value. -/
theorem parseUintLoop_overflow (s0 : String) (M : Nat) (c : Char) (d : Nat)
    (hc : digitVal c = some d) (hd : d < 10) (cs : List Char) (n : Nat) (h : M < n * 10 + d) :
    parseUintLoop s0 M (c :: cs) n = (M, some (rangeError fnParseUint s0)) := by
  have h1 : ¬ (10 ≤ d) := by omega
  have hcut : maxUint64 / 10 + 1 = 1844674407370955162 := by decide
  rw [parseUintLoop]
  simp only [hc, ge_iff_le, h1, if_false]
  by_cases h2 : n ≥ maxUint64 / 10 + 1
  · rw [if_pos h2]
  · rw [if_neg h2]
    have h3 : n * 10 % 2 ^ 64 = n * 10 := Nat.mod_eq_of_lt (by norm_num; omega)
    simp only [h3]
    rw [if_pos]
    norm_num
    omega

/-- The loop on a run of decimal digits: the number they denote when it is at
most `maxVal`, else the range error with `maxVal` as the value. -/
theorem parseUintLoop_digits (s0 : String) (M : Nat) (hM : M < 2 ^ 64) (ds : List Char)
    (hds : ds.all isDecimalDigit = true) : ∀ n, n ≤ M →
    parseUintLoop s0 M ds n =
      if decimalValueFrom n ds ≤ M then (decimalValueFrom n ds, none)
      else (M, some (rangeError fnParseUint s0)) := by
  induction ds with
  | nil =>
    intro n hn
    simp [parseUintLoop, decimalValueFrom, hn]
  | cons c cs ih =>
    intro n hn
    rw [List.all_cons, Bool.and_eq_true] at hds
    obtain ⟨hc, hd⟩ := digitVal_eq_of_digit c hds.1
    rw [decimalValueFrom_cons]
    by_cases hstep : n * 10 + (c.toNat - '0'.toNat) ≤ M
    · rw [parseUintLoop_digit s0 M hM c _ hc hd cs n hstep]
      exact ih hds.2 _ hstep
    · rw [parseUintLoop_overflow s0 M c _ hc hd cs n (by omega)]
      have := le_decimalValueFrom cs (n * 10 + (c.toNat - '0'.toNat))
      rw [if_neg (by omega)]

/-- The parser `ParseUint` at 64 bits on a non-empty run of decimal digits. -/
theorem ParseUint_digits (ds : List Char) (hne : ds ≠ [])
    (hds : ds.all isDecimalDigit = true) :
    ParseUint (String.mk ds) 64 =
      if decimalValue ds ≤ 2 ^ 64 - 1 then (decimalValue ds, none)
      else (2 ^ 64 - 1, some (rangeError fnParseUint (String.mk ds))) := by
  unfold ParseUint
  rw [if_neg (data_ne_nil_of_ne_empty _ hne), if_neg (by omega), if_neg (by omega)]
  exact parseUintLoop_digits _ _ (by norm_num) ds hds 0 (Nat.zero_le _)

/-- The parser `ParseInt` at 64 bits on a base-10 integer string whose value is
outside the signed 64-bit range: the range error, with the nearest bound of
the range as the value. -/
theorem ParseInt_out_of_range (s : String) (hs : isBase10Integer s = true)
    (hv : integerValue s < -(2 ^ 63 : Int) ∨ (2 ^ 63 : Int) ≤ integerValue s) :
    ParseInt s 64 =
      (if integerValue s < 0 then -(2 ^ 63 : Int) else 2 ^ 63 - 1,
        some (rangeError fnParseInt s)) := by
  have key : ∀ (neg : Bool) (ds : List Char), ds ≠ [] → ds.all isDecimalDigit = true →
      (neg = true → 2 ^ 63 < decimalValue ds) → (neg = false → 2 ^ 63 ≤ decimalValue ds) →
      (match (ParseUint (String.mk ds) 64).2 with
        | some (NumError.mk _ _ ErrKind.ErrRange) | none =>
          if !neg && decide ((ParseUint (String.mk ds) 64).1 ≥ 2 ^ (64 - 1) % 2 ^ 64) then
            (toInt64 (((2 ^ (64 - 1) % 2 ^ 64 : Nat) : Int) - 1), some (rangeError fnParseInt s))
          else if neg && decide ((ParseUint (String.mk ds) 64).1 > 2 ^ (64 - 1) % 2 ^ 64) then
            (toInt64 (-(toInt64 ((2 ^ (64 - 1) % 2 ^ 64 : Nat) : Int))),
              some (rangeError fnParseInt s))
          else
            (if neg then toInt64 (-(toInt64 (ParseUint (String.mk ds) 64).1))
              else toInt64 (ParseUint (String.mk ds) 64).1, none)
        | some err => (0, some (NumError.mk fnParseInt s err.Err))) =
      (if neg then -(2 ^ 63 : Int) else 2 ^ 63 - 1, some (rangeError fnParseInt s)) := by
    intro neg ds hne hds hneg hpos
    rw [ParseUint_digits ds hne hds]
    have e1 : toInt64 (((2 ^ (64 - 1) % 2 ^ 64 : Nat) : Int) - 1) = 2 ^ 63 - 1 := by
      unfold toInt64; norm_num
    have e2 : toInt64 (-(toInt64 ((2 ^ (64 - 1) % 2 ^ 64 : Nat) : Int))) = -(2 ^ 63 : Int) := by
      unfold toInt64; norm_num
    by_cases hle : decimalValue ds ≤ 2 ^ 64 - 1
    · rw [if_pos hle]
      cases neg with
      | true =>
        have := hneg rfl
        have h3 : 2 ^ (64 - 1) % 2 ^ 64 < decimalValue ds := by norm_num at this ⊢; omega
        simp only [Bool.not_true, Bool.false_and, Bool.true_and, decide_eq_true_eq, gt_iff_lt,
          h3, if_true, e2]
        simp
      | false =>
        have := hpos rfl
        have h3 : decimalValue ds ≥ 2 ^ (64 - 1) % 2 ^ 64 := by norm_num at this ⊢; omega
        simp only [Bool.not_false, Bool.true_and, decide_eq_true_eq, h3, if_true, e1]
        simp
    · rw [if_neg hle]
      cases neg with
      | true =>
        simp only [rangeError, Bool.not_true, Bool.false_and, Bool.true_and, e2]
        norm_num
      | false =>
        simp only [rangeError, Bool.not_false, Bool.true_and, e1]
        norm_num
  have hne : s ≠ "" := by
    intro h
    rw [h] at hs
    simp [isBase10Integer] at hs
  unfold ParseInt
  rw [if_neg hne]
  unfold isBase10Integer at hs
  split at hs
  · rename_i ds hd
    have hiv : integerValue s = (decimalValue ds : Int) := by
      unfold integerValue; simp only [hd]
    have hps : pickSign s = (false, String.mk ds) := by
      unfold pickSign; simp only [hd]
    rw [hiv] at hv ⊢
    rw [Bool.and_eq_true] at hs
    have := key false ds (by simpa using hs.1) hs.2 (by simp) (by intro _; omega)
    have hnn : ¬ ((decimalValue ds : Int) < 0) := by omega
    simpa [hps, hnn] using this
  · rename_i ds hd
    have hiv : integerValue s = -(decimalValue ds : Int) := by
      unfold integerValue; simp only [hd]
    have hps : pickSign s = (true, String.mk ds) := by
      unfold pickSign; simp only [hd]
    rw [hiv] at hv ⊢
    rw [Bool.and_eq_true] at hs
    have := key true ds (by simpa using hs.1) hs.2 (by intro _; omega) (by simp)
    have hnn : -(decimalValue ds : Int) < 0 := by omega
    simpa [hps, hnn] using this
  · rename_i ds h1 h2
    have hiv : integerValue s = (decimalValue s.data : Int) := by
      unfold integerValue
      split
      · rename_i rest h; exact absurd h (h1 rest)
      · rename_i rest h; exact absurd h (h2 rest)
      · rfl
    have hps : pickSign s = (false, s) := by
      unfold pickSign
      split
      · rename_i rest h; exact absurd h (h1 rest)
      · rename_i rest h; exact absurd h (h2 rest)
      · rfl
    rw [hiv] at hv ⊢
    rw [Bool.and_eq_true] at hs
    have := key false s.data (by simpa using hs.1) hs.2 (by simp) (by intro _; omega)
    have hnn : ¬ ((decimalValue s.data : Int) < 0) := by omega
    simpa [hps, hnn] using this

/-! ## Facts about the keys -/

theorem annotationKeys_eq_map (pfx : String) :
    annotationKeys pfx = keySuffixes.map (fun suffix => pfx ++ suffix) := by
  have e1 : ".ingress" ++ "/loadbalancer-mode" = ".ingress/loadbalancer-mode" := by decide
  have e2 : ".ingress" ++ "/service-type" = ".ingress/service-type" := by decide
  have e3 : ".ingress" ++ "/insecure-node-port" = ".ingress/insecure-node-port" := by decide
  have e4 : ".ingress" ++ "/secure-node-port" = ".ingress/secure-node-port" := by decide
  simp only [annotationKeys, keySuffixes, LBModeAnnotation, ServiceTypeAnnotation,
    InsecureNodePortAnnotation, SecureNodePortAnnotation, TCPKeepAliveEnabledAnnotation,
    TCPKeepAliveIdleAnnotation, TCPKeepAliveProbeIntervalAnnotation,
    TCPKeepAliveProbeMaxFailuresAnnotation, WebsocketEnabledAnnotation, String.append_assoc,
    e1, e2, e3, e4, List.map_cons, List.map_nil]

theorem Ingress.get_exchange_right (ingress : Ingress) (k1 k2 : String) :
    (ingress.exchange k1 k2).GetAnnotations k2 = ingress.GetAnnotations k1 := by
  unfold Ingress.exchange Ingress.GetAnnotations
  by_cases h : k2 = k1
  · simp [h]
  · simp [h]

theorem Ingress.get_exchange_left (ingress : Ingress) (k1 k2 : String) :
    (ingress.exchange k1 k2).GetAnnotations k1 = ingress.GetAnnotations k2 := by
  simp [Ingress.exchange, Ingress.GetAnnotations]

/-! ## The claims, continued -/

/-- C11: the doc comment of the websocket accessor reads "returns 1 if enabled
(default), 0 if disabled", so with the websocket key absent the result should
be 1, as it is for the keep-alive accessor under the same comment. The code
evaluated on the ingress without annotations: the key is absent, the
websocket accessor returns 0 and not 1, and the keep-alive accessor returns 1. -/
theorem websocket_absent_is_not_enabled :
    Ingress.empty.GetAnnotations ( WebsocketEnabledAnnotation "io.cilium") = none ∧
    GetAnnotationWebsocketEnabled "io.cilium" Ingress.empty = 0 ∧
    GetAnnotationWebsocketEnabled "io.cilium" Ingress.empty ≠ 1 ∧
    GetAnnotationTCPKeepAliveEnabled "io.cilium" Ingress.empty = 1 := by
  decide

/-- What the websocket accessor computes, for every ingress: 0 when the
websocket key is absent, 1 exactly when the key is present with the value
"enabled", and 0 in every other case. -/
theorem websocket_default_disabled (pfx : String) (ingress : Ingress) :
    (ingress.GetAnnotations ( WebsocketEnabledAnnotation pfx) = none →
      GetAnnotationWebsocketEnabled pfx ingress = 0) ∧
    (GetAnnotationWebsocketEnabled pfx ingress = 1 ↔
      ingress.GetAnnotations ( WebsocketEnabledAnnotation pfx) = some "enabled") ∧
    (GetAnnotationWebsocketEnabled pfx ingress = 0 ↔
      ingress.GetAnnotations ( WebsocketEnabledAnnotation pfx) ≠ some "enabled") := by
  unfold GetAnnotationWebsocketEnabled
  cases h : ingress.GetAnnotations ( WebsocketEnabledAnnotation pfx) with
  | none => simp [defaultWebsocketEnabled]
  | some v =>
    by_cases hv : v = "enabled"
    · simp [hv, enabled]
    · simp [hv, enabled]

/-- The websocket accessor on the absent key and on the values "enabled" and
"disabled". -/
theorem websocket_default_disabled_witness :
    GetAnnotationWebsocketEnabled "io.cilium" Ingress.empty = 0 ∧
    GetAnnotationWebsocketEnabled "io.cilium"
      (Ingress.empty.set ( WebsocketEnabledAnnotation "io.cilium") "enabled") = 1 ∧
    GetAnnotationWebsocketEnabled "io.cilium"
      (Ingress.empty.set ( WebsocketEnabledAnnotation "io.cilium") "disabled") = 0 :=
  ⟨(websocket_default_disabled "io.cilium" Ingress.empty).1 rfl,
   (websocket_default_disabled "io.cilium" _).2.1.mpr (Ingress.get_set_self _ _ _),
   (websocket_default_disabled "io.cilium" _).2.2.mpr
      (by rw [Ingress.get_set_self]; decide)⟩

/-- C12: for every integer `n` with `-2 ^ 31 ≤ n < 0`, when a node-port key is
present with the base-10 rendering of `n`, the corresponding node-port
accessor signals no error and returns the unsigned 32-bit value `n + 2 ^ 32`. -/
theorem negative_node_port_wraps (pfx : String) (ingress : Ingress) (n : Int)
    (hlo : -(2 ^ 31 : Int) ≤ n) (hneg : n < 0) :
    (ingress.GetAnnotations ( SecureNodePortAnnotation pfx) = some (FormatInt n) →
      GetAnnotationSecureNodePort pfx ingress = (some (n + 2 ^ 32).toNat, none)) ∧
    (ingress.GetAnnotations ( InsecureNodePortAnnotation pfx) = some (FormatInt n) →
      GetAnnotationInsecureNodePort pfx ingress = (some (n + 2 ^ 32).toNat, none)) := by
  have hparse : ParseInt (FormatInt n) 32 = (n, none) :=
    ParseInt_FormatInt n 32 (Or.inl rfl) (by norm_num; omega) (by norm_num; omega)
  have hconv : toUint32 n = (n + 2 ^ 32).toNat := by
    unfold toUint32
    norm_num at hlo ⊢
    omega
  constructor <;> intro h
  · simp [GetAnnotationSecureNodePort, h, hparse, hconv]
  · simp [GetAnnotationInsecureNodePort, h, hparse, hconv]

/-- C12 at the values "-1" (port 4294967295) and "-2147483648" (port
2147483648). -/
theorem negative_node_port_wraps_witness :
    FormatInt (-1) = "-1" ∧
    GetAnnotationSecureNodePort "io.cilium"
        (Ingress.empty.set ( SecureNodePortAnnotation "io.cilium") (FormatInt (-1))) =
      (some 4294967295, none) ∧
    GetAnnotationInsecureNodePort "io.cilium"
        (Ingress.empty.set ( InsecureNodePortAnnotation "io.cilium")
          (FormatInt (-2147483648))) =
      (some 2147483648, none) :=
  ⟨by decide,
   (negative_node_port_wraps "io.cilium" _ (-1) (by decide) (by decide)).1
      (Ingress.get_set_self _ _ _),
   (negative_node_port_wraps "io.cilium" _ (-2147483648) (by decide) (by decide)).2
      (Ingress.get_set_self _ _ _)⟩

/-- C13: for every base-10 integer string whose value lies outside the signed
64-bit range, `ParseInt` returns the range error together with the nearest
bound of the range, and each keep-alive numeric accessor whose key holds the
string returns its default (idle 10, probe interval 5, probe max failures
10), which is not that clamped value. -/
theorem keep_alive_out_of_range (pfx : String) (ingress : Ingress) (s : String)
    (hs : isBase10Integer s = true)
    (hv : integerValue s < -(2 ^ 63 : Int) ∨ (2 ^ 63 : Int) ≤ integerValue s) :
    ParseInt s 64 =
      (if integerValue s < 0 then -(2 ^ 63 : Int) else 2 ^ 63 - 1,
        some (rangeError fnParseInt s)) ∧
    (ingress.GetAnnotations ( TCPKeepAliveIdleAnnotation pfx) = some s →
      GetAnnotationTCPKeepAliveIdle pfx ingress = 10 ∧
      GetAnnotationTCPKeepAliveIdle pfx ingress ≠ (ParseInt s 64).1) ∧
    (ingress.GetAnnotations ( TCPKeepAliveProbeIntervalAnnotation pfx) = some s →
      GetAnnotationTCPKeepAliveProbeInterval pfx ingress = 5 ∧
      GetAnnotationTCPKeepAliveProbeInterval pfx ingress ≠ (ParseInt s 64).1) ∧
    (ingress.GetAnnotations ( TCPKeepAliveProbeMaxFailuresAnnotation pfx) = some s →
      GetAnnotationTCPKeepAliveProbeMaxFailures pfx ingress = 10 ∧
      GetAnnotationTCPKeepAliveProbeMaxFailures pfx ingress ≠ (ParseInt s 64).1) := by
  have hp := ParseInt_out_of_range s hs hv
  have hclamp : (ParseInt s 64).1 ≠ 10 ∧ (ParseInt s 64).1 ≠ 5 := by
    rw [hp]
    by_cases h0 : integerValue s < 0
    · simp [h0]
    · simp only [h0, if_false]
      norm_num
  refine ⟨hp, ?_, ?_, ?_⟩ <;> intro h
  · have h10 : GetAnnotationTCPKeepAliveIdle pfx ingress = 10 := by
      unfold GetAnnotationTCPKeepAliveIdle
      rw [h]
      dsimp only
      rw [hp]
      rfl
    exact ⟨h10, by rw [h10]; exact fun e => hclamp.1 e.symm⟩
  · have h5 : GetAnnotationTCPKeepAliveProbeInterval pfx ingress = 5 := by
      unfold GetAnnotationTCPKeepAliveProbeInterval
      rw [h]
      dsimp only
      rw [hp]
      rfl
    exact ⟨h5, by rw [h5]; exact fun e => hclamp.2 e.symm⟩
  · have h10 : GetAnnotationTCPKeepAliveProbeMaxFailures pfx ingress = 10 := by
      unfold GetAnnotationTCPKeepAliveProbeMaxFailures
      rw [h]
      dsimp only
      rw [hp]
      rfl
    exact ⟨h10, by rw [h10]; exact fun e => hclamp.1 e.symm⟩

/-- C13 at the values "9223372036854775808" and "-9223372036854775809". -/
theorem keep_alive_out_of_range_witness :
    GetAnnotationTCPKeepAliveIdle "io.cilium"
      (Ingress.empty.set ( TCPKeepAliveIdleAnnotation "io.cilium")
        "9223372036854775808") = 10 ∧
    (ParseInt "9223372036854775808" 64).1 = 9223372036854775807 ∧
    GetAnnotationTCPKeepAliveProbeInterval "io.cilium"
      (Ingress.empty.set ( TCPKeepAliveProbeIntervalAnnotation "io.cilium")
        "-9223372036854775809") = 5 ∧
    (ParseInt "-9223372036854775809" 64).1 = -9223372036854775808 :=
  ⟨((keep_alive_out_of_range "io.cilium" _ "9223372036854775808" (by decide)
      (Or.inr (by decide))).2.1 (Ingress.get_set_self _ _ _)).1,
   by decide,
   ((keep_alive_out_of_range "io.cilium" _ "-9223372036854775809" (by decide)
      (Or.inl (by decide))).2.2.1 (Ingress.get_set_self _ _ _)).1,
   by decide⟩

/-- C14: for every value of the shared prefix the nine annotation keys are
pairwise distinct strings, so no two accessors read the same map entry. -/
theorem annotation_keys_pairwise_distinct (pfx : String) :
    (annotationKeys pfx).length = 9 ∧
    List.Pairwise (fun k1 k2 => k1 ≠ k2) (annotationKeys pfx) := by
  refine ⟨rfl, ?_⟩
  rw [annotationKeys_eq_map]
  have hinj : Function.Injective (fun suffix => pfx ++ suffix) := by
    intro a b hab
    by_contra hne
    exact key_ne_of_suffix_ne pfx a b hne hab
  have hnodup : keySuffixes.Nodup := by decide
  exact List.Nodup.map hinj hnodup

/-- C15: the secure and the insecure node-port accessor are the same function
up to the key they read: on every ingress the secure accessor returns the
value and the error that the insecure accessor returns on the ingress with
the entries at the two node-port keys exchanged, and the other way round. -/
theorem node_port_accessors_exchange (pfx : String) (ingress : Ingress) :
    GetAnnotationSecureNodePort pfx ingress =
      GetAnnotationInsecureNodePort pfx
        (ingress.exchange ( SecureNodePortAnnotation pfx) ( InsecureNodePortAnnotation pfx)) ∧
    GetAnnotationInsecureNodePort pfx ingress =
      GetAnnotationSecureNodePort pfx
        (ingress.exchange ( SecureNodePortAnnotation pfx) ( InsecureNodePortAnnotation pfx)) := by
  constructor
  · unfold GetAnnotationSecureNodePort GetAnnotationInsecureNodePort
    rw [Ingress.get_exchange_right]
  · unfold GetAnnotationSecureNodePort GetAnnotationInsecureNodePort
    rw [Ingress.get_exchange_left]

end annotations
